import Mathlib

set_option maxRecDepth 100000

/-!
Verification of the retrieval-rerank-extraction-formatting pipeline of the
Ubuntu customer-service chatbot.

The repository has two execution surfaces sharing the same pipeline shape:
`src/chat.py` (interactive CLI loop) and `app.py` (Streamlit UI).  Python
strings are embedded as `List Char`, Python floats (whose exact values here
are small decimal constants combined by addition) as `ℚ`.  The two surfaces
have slightly different constant tables (veto patterns, hint vocabularies),
so the scorer is a single generic function instantiated twice; `pick_best`
and `extract_commands` are textually identical in both files and are
embedded once.
-/

/-! ### Basic string helpers (Python `str` operations) -/

/-- Python whitespace for `str.strip` / `\s` (ASCII range). -/
def isSpaceChar (c : Char) : Bool :=
  c == ' ' || c == '\t' || c == '\n' || c == '\r' || c == '\x0b' || c == '\x0c'

/-- Python `str.lower` (ASCII case folding suffices for this corpus logic). -/
def lowerChars (s : List Char) : List Char := s.map Char.toLower

/-- Python `str.strip()`: remove leading and trailing whitespace. -/
def trimChars (s : List Char) : List Char :=
  ((s.dropWhile isSpaceChar).reverse.dropWhile isSpaceChar).reverse

/-- Python substring test `w in s`. -/
def containsSub (s w : List Char) : Bool :=
  match s with
  | [] => w.isEmpty
  | _ :: t => w.isPrefixOf s || containsSub t w

/-! ### Regex fragments used by the veto patterns

The veto list uses only two regex shapes: `#\w+` (a hash sign followed by at
least one word character) and `\b<literal>\b` (a literal bounded by word
boundaries).  `\w` is `[A-Za-z0-9_]`; a word boundary holds at a position
where exactly one of the two neighbouring characters (start/end of string
counting as non-word) is a word character. -/

def isWordChar (c : Char) : Bool := c.isAlphanum || c == '_'

/-- Whether position `i` of `s` holds a word character (out of range: no). -/
def wordCharAt (s : List Char) (i : Nat) : Bool :=
  match s.drop i with
  | c :: _ => isWordChar c
  | [] => false

/-- Regex `\b` at offset `i` (between `s[i-1]` and `s[i]`). -/
def boundaryAt (s : List Char) (i : Nat) : Bool :=
  (match i with
   | 0 => false
   | j + 1 => wordCharAt s j) != wordCharAt s i

/-- The literal `w` occurs at offset `i` of `s`. -/
def subAt (s w : List Char) (i : Nat) : Bool := w.isPrefixOf (s.drop i)

/-- Regex `\b w \b` matches at offset `i`. -/
def wordPatMatchAt (s w : List Char) (i : Nat) : Bool :=
  subAt s w i && boundaryAt s i && boundaryAt s (i + w.length)

/-- Regex search for `\b w \b` anywhere in `s`. -/
def wordPatMatch (s w : List Char) : Bool :=
  (List.range (s.length + 1)).any (fun i => wordPatMatchAt s w i)

/-- Regex search for `#\w+`: some `#` immediately followed by a word char. -/
def hashtagMatch : List Char → Bool
  | [] => false
  | [_] => false
  | c :: d :: rest => (c == '#' && isWordChar d) || hashtagMatch (d :: rest)

/-- A veto pattern: each entry of `BAD_PATTERNS` is one of these two shapes. -/
inductive NoisePat where
  | hashtag : NoisePat
  | word : List Char → NoisePat
deriving DecidableEq

/-- `re.search(pat, s)` for the two pattern shapes used by the veto list. -/
def noiseMatch (s : List Char) : NoisePat → Bool
  | NoisePat.hashtag => hashtagMatch s
  | NoisePat.word w => wordPatMatch s w

/-! ### Quality scorer (generic in the constant tables)

Both `chat.answer_quality_score` and `app.answer_quality` have exactly this
shape; only the three constant tables differ. -/

/-- The shared body of the answer-quality scorers:
veto check (returns `-2.0` at once), then `+0.25` per occurring hint,
a length adjustment, and a `+0.3` step-language bonus. -/
def qualityScoreGen (bad : List NoisePat) (hints stepWords : List (List Char))
    (ans : List Char) : ℚ :=
  let a := trimChars (lowerChars ans)
  if bad.any (noiseMatch a) then -2.0
  else
    let score : ℚ := hints.foldl (fun s w => if containsSub a w then s + 0.25 else s) 0.0
    let score := if 30 ≤ a.length ∧ a.length ≤ 350 then score + 0.5
      else if a.length < 15 then score - 0.5
      else if a.length > 600 then score - 0.3
      else score
    if stepWords.any (fun x => containsSub a x) then score + 0.3 else score

namespace chat

/-- `BAD_PATTERNS` of src/chat.py. -/
def BAD_PATTERNS : List NoisePat :=
  [NoisePat.hashtag, NoisePat.word "join".data, NoisePat.word "irssi".data,
   NoisePat.word "lol".data, NoisePat.word "pm me".data,
   NoisePat.word "google it".data, NoisePat.word "ask on".data,
   NoisePat.word "wrong channel".data, NoisePat.word "ask in".data,
   NoisePat.word "go to #".data]

/-- `GOOD_HINTS` of src/chat.py. -/
def GOOD_HINTS : List (List Char) :=
  ["sudo".data, "apt".data, "apt-get".data, "dpkg".data, "systemctl".data,
   "service".data, "nmcli".data, "ifconfig".data, "iwconfig".data,
   "lspci".data, "lsusb".data, "modprobe".data, "dmesg".data, "/etc/".data,
   "reboot".data, "restart".data, "update".data, "upgrade".data,
   "install".data, "purge".data, "remove".data, "networkmanager".data,
   "netplan".data, "rfkill".data, "error".data, "failed".data,
   "dependency".data, "dependencies".data, "kernel".data, "driver".data]

/-- The inline step-language word list of `answer_quality_score`. -/
def STEP_WORDS : List (List Char) :=
  ["try".data, "run".data, "check".data, "edit".data, "open".data,
   "type".data, "command".data, "reboot".data, "restart".data]

/-- `UBUNTU_INTENT_HINTS` of src/chat.py. -/
def UBUNTU_INTENT_HINTS : List (List Char) :=
  ["ubuntu".data, "linux".data, "apt".data, "apt-get".data, "dpkg".data,
   "sudo".data, "kernel".data, "grub".data, "wifi".data, "wireless".data,
   "network".data, "nmcli".data, "bluetooth".data, "nvidia".data,
   "driver".data, "install".data, "update".data, "upgrade".data,
   "error".data, "failed".data, "package".data, "terminal".data,
   "bash".data, "permission".data, "mount".data, "disk".data]

/-- `MIN_TOTAL_SCORE` of src/chat.py. -/
def MIN_TOTAL_SCORE : ℚ := 1.10

/-- `answer_quality_score` of src/chat.py. -/
def answer_quality_score (ans : List Char) : ℚ :=
  qualityScoreGen BAD_PATTERNS GOOD_HINTS STEP_WORDS ans

/-- `is_ubuntu_question` of src/chat.py. -/
def is_ubuntu_question (q : List Char) : Bool :=
  let ql := trimChars (lowerChars q)
  UBUNTU_INTENT_HINTS.any (fun h => containsSub ql h)

end chat

namespace app

/-- `BAD_PATTERNS` of app.py. -/
def BAD_PATTERNS : List NoisePat :=
  [NoisePat.hashtag, NoisePat.word "join".data, NoisePat.word "lol".data,
   NoisePat.word "wrong channel".data, NoisePat.word "ask on".data,
   NoisePat.word "irssi".data]

/-- `GOOD_HINTS` of app.py. -/
def GOOD_HINTS : List (List Char) :=
  ["sudo".data, "apt".data, "apt-get".data, "dpkg".data, "systemctl".data,
   "service".data, "nmcli".data, "ifconfig".data, "iwconfig".data,
   "lspci".data, "lsusb".data, "dmesg".data, "reboot".data, "restart".data,
   "update".data, "upgrade".data, "install".data, "kernel".data,
   "driver".data, "dependency".data, "failed".data, "error".data]

/-- The inline step-language word list of `answer_quality`. -/
def STEP_WORDS : List (List Char) :=
  ["try".data, "run".data, "check".data, "type".data, "command".data]

/-- `UBUNTU_INTENT_HINTS` of app.py. -/
def UBUNTU_INTENT_HINTS : List (List Char) :=
  ["ubuntu".data, "linux".data, "apt".data, "apt-get".data, "dpkg".data,
   "sudo".data, "kernel".data, "grub".data, "wifi".data, "wireless".data,
   "network".data, "nmcli".data, "bluetooth".data, "nvidia".data,
   "driver".data, "install".data, "update".data, "upgrade".data,
   "error".data, "failed".data, "package".data, "terminal".data,
   "bash".data, "permission".data, "mount".data, "disk".data,
   "snap".data, "repo".data, "dependency".data]

/-- `answer_quality` of app.py. -/
def answer_quality (ans : List Char) : ℚ :=
  qualityScoreGen BAD_PATTERNS GOOD_HINTS STEP_WORDS ans

/-- `is_ubuntu_question` of app.py. -/
def is_ubuntu_question (q : List Char) : Bool :=
  let ql := trimChars (lowerChars q)
  UBUNTU_INTENT_HINTS.any (fun h => containsSub ql h)

end app

/-! ### Candidates and the reranker (`pick_best`, identical in both files) -/

/-- A retrieval result before reranking: the dict
`{"sim": float(sim), "matched_query": ..., "answer": ...}`. -/
structure RawCand where
  sim : ℚ
  matched_query : List Char
  answer : List Char
deriving DecidableEq

/-- A reranked candidate: the same dict after `pick_best` has set
`r["qual"]` and `r["total"]`. -/
structure Candidate where
  sim : ℚ
  matched_query : List Char
  answer : List Char
  qual : ℚ
  total : ℚ
deriving DecidableEq

/-- The per-record mutation done inside the `pick_best` loop:
`qual = score(answer)`, `total = sim + qual`. -/
def annotate (score : List Char → ℚ) (r : RawCand) : Candidate :=
  { sim := r.sim, matched_query := r.matched_query, answer := r.answer,
    qual := score r.answer, total := r.sim + score r.answer }

/-- The `for r in results` selection loop of `pick_best`: strict `>`
comparison against the running best score (initially `-999.0`). -/
def bestLoop : List Candidate → Option Candidate → ℚ → Option Candidate
  | [], best, _ => best
  | c :: cs, best, bestScore =>
    if bestScore < c.total then bestLoop cs (some c) c.total
    else bestLoop cs best bestScore

/-- Stable insertion step for descending order by `total` (a new element is
placed before the first element whose `total` does not exceed it). -/
def insertDesc (c : Candidate) : List Candidate → List Candidate
  | [] => [c]
  | d :: ds => if d.total ≤ c.total then c :: d :: ds else d :: insertDesc c ds

/-- Python `sorted(results, key=lambda x: x["total"], reverse=True)`:
the stable sort by `total` descending. -/
def sortDesc : List Candidate → List Candidate
  | [] => []
  | c :: cs => insertDesc c (sortDesc cs)

/-- `pick_best` (identical logic in src/chat.py and app.py, differing only
in which quality scorer `score` it calls). -/
def pick_best (score : List Char → ℚ) (results : List RawCand) :
    Option Candidate × List Candidate :=
  let annotated := results.map (annotate score)
  (bestLoop annotated none (-999.0), sortDesc annotated)

/-! ### Command extraction (`extract_commands`, identical in both files) -/

/-- One scanning pass of `re.split(r",|&&|\.\s+", t)`: at each position try
the delimiters `","`, `"&&"`, and `"." + maximal whitespace run` in order.
`fuel` is an upper bound on the recursion depth; every step consumes at
least one character, so `fuel = length + 1` (as passed by `pySplitDelims`)
is never exhausted. -/
def splitAux : Nat → List Char → List Char → List (List Char)
  | 0, rest, acc => [acc.reverse ++ rest]
  | _ + 1, [], acc => [acc.reverse]
  | n + 1, c :: rest, acc =>
    if c == ',' then acc.reverse :: splitAux n rest []
    else if c == '&' && rest.head? == some '&' then
      acc.reverse :: splitAux n rest.tail []
    else if c == '.' && (match rest with
        | d :: _ => isSpaceChar d
        | [] => false) then
      acc.reverse :: splitAux n (rest.dropWhile isSpaceChar) []
    else splitAux n rest (c :: acc)

/-- `re.split(r",|&&|\.\s+", t)`. -/
def pySplitDelims (t : List Char) : List (List Char) := splitAux (t.length + 1) t []

/-- `cmd_keywords` of `extract_commands`. -/
def CMD_KEYWORDS : List (List Char) :=
  ["sudo".data, "apt-get".data, "apt ".data, "nmcli".data, "ifconfig".data,
   "iwconfig".data, "lspci".data, "lsusb".data, "dmesg".data,
   "systemctl".data, "rfkill".data, "netplan".data]

/-- `re.sub(r"^\s*run\s+", "", p, flags=re.IGNORECASE)`: if the segment
starts with optional whitespace, then `run` (any case), then at least one
whitespace character, remove that prefix (with a maximal whitespace run);
otherwise leave the segment unchanged. -/
def subRunLead (p : List Char) : List Char :=
  let rest := p.dropWhile isSpaceChar
  if lowerChars (rest.take 3) == "run".data
      && (match rest.drop 3 with
          | d :: _ => isSpaceChar d
          | [] => false) then
    (rest.drop 3).dropWhile isSpaceChar
  else p

/-- The per-segment body of the `for p in parts` loop of `extract_commands`:
`none` when the segment is dropped, `some c` when command `c` is appended. -/
def processPart (part : List Char) : Option (List Char) :=
  let p := trimChars part
  if p = [] then none
  else
    let low := lowerChars p
    if CMD_KEYWORDS.any (fun k => containsSub low k) then
      let p1 := subRunLead p
      let p2 := if "apt-get".data.isPrefixOf (lowerChars p1)
                  || "apt ".data.isPrefixOf (lowerChars p1)
                then "sudo ".data ++ p1 else p1
      if 5 ≤ p2.length then some p2 else none
    else none

/-- The `commands` list of `extract_commands` just before de-duplication:
the kept segments, then `"sudo reboot"` when the stripped text mentions
`reboot` (case-insensitively). -/
def rawCommands (t : List Char) : List (List Char) :=
  (pySplitDelims t).filterMap processPart
    ++ (if containsSub (lowerChars t) "reboot".data then ["sudo reboot".data] else [])

/-- The `seen`/`unique` de-duplication loop: keep the first occurrence of
each string, in order. -/
def dedupFirst : List (List Char) → List (List Char) → List (List Char)
  | [], _ => []
  | c :: cs, seen => if c ∈ seen then dedupFirst cs seen else c :: dedupFirst cs (c :: seen)

/-- `extract_commands` (identical in src/chat.py and app.py). -/
def extract_commands (text : List Char) : List (List Char) :=
  if text = [] then []
  else (dedupFirst (rawCommands (trimChars text)) []).take 8

/-! ### Response formatting -/

/-- Python `"\n".join(...)`. -/
def joinNL : List (List Char) → List Char
  | [] => []
  | [x] => x
  | x :: y :: rest => x ++ '\n' :: joinNL (y :: rest)

/-- The four diagnostic-gathering lines appended unconditionally at the end
of both formatters (identical strings in src/chat.py and app.py). -/
def DIAG_LINES : List (List Char) :=
  ["- Ubuntu version: `lsb_release -a`".data,
   "- WiFi chipset: `lspci | grep -i net`".data,
   "- Network status: `nmcli dev status`".data,
   "- Logs: `dmesg | tail -50`".data]

namespace chat

/-- `format_support_answer` of src/chat.py (the `user_q` parameter is unused
in the source body as well). -/
def format_support_answer (user_q best_answer : List Char) : List Char :=
  let commands := extract_commands best_answer
  joinNL ([" Suggested fix (based on similar Ubuntu issues):\n".data,
           "1) Best next step:".data,
           "- ".data ++ trimChars best_answer]
    ++ (if commands = [] then []
        else ["\n2) Commands to run (copy/paste):".data, "```bash".data]
          ++ commands ++ ["```".data])
    ++ ("\n3) If it still doesn\x27t work, reply with:".data :: DIAG_LINES))

end chat

namespace app

/-- `format_support_answer` of app.py (the header strings of that file are
stored with their literal mojibake characters, reproduced here via unicode
escapes). -/
def format_support_answer (best_answer : List Char) : List Char :=
  let cmds := extract_commands best_answer
  joinNL (["\u00e2\u0153\u2026 **Suggested fix (based on similar Ubuntu issues):**\n".data,
           "**1) Best next step:**".data,
           "- ".data ++ trimChars best_answer]
    ++ (if cmds = [] then []
        else ["\n**2) Commands to run (copy/paste):**".data, "```bash".data]
          ++ cmds ++ ["```".data])
    ++ ("\n**3) If it still doesn\x27t work, reply with:**".data :: DIAG_LINES))

end app

/-! ### The two execution surfaces

The retrieval call (`search`) is external (FAISS index + embedding model);
each surface is modelled as a function of the candidate list that the
retrieval call would return for the current query. -/

/-- Outcome of one iteration of the `while True` loop of `chat.main`.
`crashed` models the `TypeError` Python would raise at `best["total"]`
when `pick_best` returns `best = None` (empty retrieval result). -/
inductive ChatReply where
  | terminated : ChatReply
  | skipped : ChatReply
  | outOfDomain : ChatReply
  | lowConfidence : ChatReply
  | crashed : ChatReply
  | answered : List Char → ChatReply
deriving DecidableEq

/-- One iteration of the CLI loop of src/chat.py `main`: strip the input,
handle exit/blank/out-of-domain, then retrieve, rerank, apply the
`MIN_TOTAL_SCORE` confidence gate, and otherwise format the best answer. -/
def chatTurn (results : List RawCand) (raw : List Char) : ChatReply :=
  let user_q := trimChars raw
  if lowerChars user_q = "exit".data ∨ lowerChars user_q = "quit".data then
    ChatReply.terminated
  else if user_q = [] then ChatReply.skipped
  else if chat.is_ubuntu_question user_q = false then ChatReply.outOfDomain
  else
    match pick_best chat.answer_quality_score results with
    | (some best, _ranked) =>
      if best.total < chat.MIN_TOTAL_SCORE then ChatReply.lowConfidence
      else ChatReply.answered (chat.format_support_answer user_q best.answer)
    | (none, _ranked) => ChatReply.crashed

/-- The out-of-domain rejection text of app.py (its first characters are
the literal mojibake stored in the source file). -/
def APP_OUT_OF_DOMAIN_MSG : List Char :=
  ("\u011f\u0178\u00a4\u2013 I can only help with **Ubuntu / Linux technical support** questions.\n\n"
    ++ "Try: `wifi not working after update` or `apt-get update failed`.").data

/-- The bot response computed inside app.py's Send handler for a non-blank
query: the out-of-domain message, or the formatted best answer with no
confidence gate.  `none` models the `TypeError` Python would raise at
`best["answer"]` when `pick_best` returns `best = None`. -/
def appBotMsg (results : List RawCand) (user_q : List Char) : Option (List Char) :=
  if app.is_ubuntu_question user_q = false then some APP_OUT_OF_DOMAIN_MSG
  else (pick_best app.answer_quality results).1.map
    (fun best => app.format_support_answer best.answer)

/-- app.py's Send handler acting on the session transcript
(`st.session_state.messages`; `true` = user role, `false` = bot role):
blank input leaves the transcript unchanged, otherwise the stripped user
message and the bot response are appended.  `none` models the crash case
of `appBotMsg`. -/
def appSendMessages (results : List RawCand) (user_q : List Char)
    (messages : List (Bool × List Char)) : Option (List (Bool × List Char)) :=
  if trimChars user_q = [] then some messages
  else
    match appBotMsg results user_q with
    | some bot => some (messages ++ [(true, trimChars user_q), (false, bot)])
    | none => none

/-! ### Properties of the `pick_best` selection loop -/

/-- A candidate returned by `bestLoop` is either drawn from the scanned list
or was the incoming running best. -/
theorem bestLoop_some_mem (cs : List Candidate) :
    ∀ (o : Option Candidate) (s : ℚ) (x : Candidate),
      bestLoop cs o s = some x → x ∈ cs ∨ o = some x := by
  induction cs with
  | nil =>
    intro o s x h
    right
    simpa [bestLoop] using h
  | cons c cs ih =>
    intro o s x h
    rw [bestLoop] at h
    by_cases hc : s < c.total
    · rw [if_pos hc] at h
      rcases ih _ _ _ h with h1 | h1
      · exact Or.inl (List.mem_cons_of_mem _ h1)
      · cases Option.some.inj h1
        exact Or.inl (List.mem_cons_self _ _)
    · rw [if_neg hc] at h
      rcases ih _ _ _ h with h1 | h1
      · exact Or.inl (List.mem_cons_of_mem _ h1)
      · exact Or.inr h1

/-- Running the selection loop with current best `b` (and running score
`b.total`) yields the first candidate that strictly exceeds every earlier
total: the result dominates the whole scanned list, and when it differs
from `b` it splits the list with strictly smaller totals before it. -/
theorem bestLoop_run (cs : List Candidate) :
    ∀ b : Candidate, ∃ bf, bestLoop cs (some b) b.total = some bf ∧
      b.total ≤ bf.total ∧ (∀ c ∈ cs, c.total ≤ bf.total) ∧
      (bf = b ∨ ∃ l1 l2, cs = l1 ++ bf :: l2 ∧ b.total < bf.total ∧
        ∀ c ∈ l1, c.total < bf.total) := by
  induction cs with
  | nil =>
    intro b
    refine ⟨b, ?_, le_refl _, ?_, Or.inl rfl⟩
    · rw [bestLoop]
    · intro c hc
      cases hc
  | cons c cs ih =>
    intro b
    rw [bestLoop]
    by_cases hc : b.total < c.total
    · rw [if_pos hc]
      obtain ⟨bf, h1, h2, h3, h4⟩ := ih c
      refine ⟨bf, h1, le_trans (le_of_lt hc) h2, ?_, ?_⟩
      · intro x hx
        rcases List.mem_cons.mp hx with rfl | hx
        · exact h2
        · exact h3 x hx
      · right
        rcases h4 with rfl | ⟨m1, m2, he, hlt, hall⟩
        · exact ⟨[], cs, rfl, hc, by intro x hx; cases hx⟩
        · refine ⟨c :: m1, m2, by rw [he, List.cons_append], lt_of_lt_of_le hc h2, ?_⟩
          intro x hx
          rcases List.mem_cons.mp hx with rfl | hx
          · exact hlt
          · exact hall x hx
    · rw [if_neg hc]
      have hcb : c.total ≤ b.total := le_of_not_lt hc
      obtain ⟨bf, h1, h2, h3, h4⟩ := ih b
      refine ⟨bf, h1, h2, ?_, ?_⟩
      · intro x hx
        rcases List.mem_cons.mp hx with rfl | hx
        · exact le_trans hcb h2
        · exact h3 x hx
      · rcases h4 with rfl | ⟨m1, m2, he, hlt, hall⟩
        · exact Or.inl rfl
        · refine Or.inr ⟨c :: m1, m2, by rw [he, List.cons_append], hlt, ?_⟩
          intro x hx
          rcases List.mem_cons.mp hx with rfl | hx
          · exact lt_of_le_of_lt hcb hlt
          · exact hall x hx

/-- Starting from `best = None`, `best_score = -999.0`, on a non-empty list
whose totals all exceed `-999.0`, the loop returns the first candidate of
maximal total. -/
theorem bestLoop_start (cs : List Candidate) (hne : cs ≠ [])
    (hlb : ∀ c ∈ cs, (-999.0 : ℚ) < c.total) :
    ∃ bf l1 l2, bestLoop cs none (-999.0) = some bf ∧ cs = l1 ++ bf :: l2 ∧
      (∀ c ∈ l1, c.total < bf.total) ∧ ∀ c ∈ cs, c.total ≤ bf.total := by
  match cs, hne with
  | c :: cs, _ =>
    rw [bestLoop, if_pos (hlb c (List.mem_cons_self c cs))]
    obtain ⟨bf, h1, h2, h3, h4⟩ := bestLoop_run cs c
    rcases h4 with rfl | ⟨m1, m2, he, hlt, hall⟩
    · refine ⟨bf, [], cs, h1, rfl, ?_, ?_⟩
      · intro x hx
        cases hx
      · intro x hx
        rcases List.mem_cons.mp hx with rfl | hx
        · exact le_refl _
        · exact h3 x hx
    · refine ⟨bf, c :: m1, m2, h1, by rw [he, List.cons_append], ?_, ?_⟩
      · intro x hx
        rcases List.mem_cons.mp hx with rfl | hx
        · exact hlt
        · exact hall x hx
      · intro x hx
        rcases List.mem_cons.mp hx with rfl | hx
        · exact h2
        · exact h3 x hx

/-! ### Properties of the stable descending sort -/

/-- Inserting an element permutes consing it. -/
theorem insertDesc_perm (c : Candidate) (l : List Candidate) :
    List.Perm (insertDesc c l) (c :: l) := by
  induction l with
  | nil => exact List.Perm.refl _
  | cons d ds ih =>
    rw [insertDesc]
    by_cases h : d.total ≤ c.total
    · rw [if_pos h]
    · rw [if_neg h]
      exact List.Perm.trans (List.Perm.cons d ih) (List.Perm.swap c d ds)

/-- The ranked list is a permutation of the scored candidates. -/
theorem sortDesc_perm (l : List Candidate) : List.Perm (sortDesc l) l := by
  induction l with
  | nil => exact List.Perm.refl _
  | cons c cs ih =>
    rw [sortDesc]
    exact List.Perm.trans (insertDesc_perm c (sortDesc cs)) (List.Perm.cons c ih)

/-- Membership in an insertion. -/
theorem mem_insertDesc (x c : Candidate) (l : List Candidate) :
    x ∈ insertDesc c l ↔ x = c ∨ x ∈ l := by
  rw [(insertDesc_perm c l).mem_iff]
  exact List.mem_cons

/-- Insertion preserves the descending-by-total pairwise order. -/
theorem insertDesc_pairwise (c : Candidate) (l : List Candidate)
    (h : List.Pairwise (fun a b => b.total ≤ a.total) l) :
    List.Pairwise (fun a b => b.total ≤ a.total) (insertDesc c l) := by
  induction l with
  | nil => simp [insertDesc]
  | cons d ds ih =>
    rw [insertDesc]
    rcases List.pairwise_cons.mp h with ⟨hd, hds⟩
    by_cases hdc : d.total ≤ c.total
    · rw [if_pos hdc]
      refine List.pairwise_cons.mpr ⟨?_, h⟩
      intro x hx
      rcases List.mem_cons.mp hx with rfl | hx
      · exact hdc
      · exact le_trans (hd x hx) hdc
    · rw [if_neg hdc]
      refine List.pairwise_cons.mpr ⟨?_, ih hds⟩
      intro x hx
      rcases (mem_insertDesc x c ds).mp hx with rfl | hx
      · exact le_of_lt (lt_of_not_le hdc)
      · exact hd x hx

/-- The ranked list is sorted by `total`, descending. -/
theorem sortDesc_pairwise (l : List Candidate) :
    List.Pairwise (fun a b => b.total ≤ a.total) (sortDesc l) := by
  induction l with
  | nil => simp [sortDesc]
  | cons c cs ih =>
    rw [sortDesc]
    exact insertDesc_pairwise c (sortDesc cs) ih

/-- Inserting an element whose total is `t` passes it in front of exactly
the non-`t` prefix: the `t`-level sublist gains `c` at its head. -/
theorem insertDesc_filter_pos (t : ℚ) (c : Candidate) (l : List Candidate)
    (h : c.total = t) :
    (insertDesc c l).filter (fun x => decide (x.total = t)) =
      c :: l.filter (fun x => decide (x.total = t)) := by
  induction l with
  | nil => simp [insertDesc, List.filter_cons, h]
  | cons d ds ih =>
    rw [insertDesc]
    by_cases hdc : d.total ≤ c.total
    · rw [if_pos hdc]
      simp [List.filter_cons, h]
    · rw [if_neg hdc]
      have hdt : ¬ d.total = t := by
        rw [← h]
        intro he
        exact hdc (le_of_eq he)
      rw [List.filter_cons, if_neg (by simpa using hdt), ih,
        List.filter_cons, if_neg (by simpa using hdt)]

/-- Inserting an element whose total is not `t` leaves the `t`-level
sublist unchanged. -/
theorem insertDesc_filter_neg (t : ℚ) (c : Candidate) (l : List Candidate)
    (h : ¬ c.total = t) :
    (insertDesc c l).filter (fun x => decide (x.total = t)) =
      l.filter (fun x => decide (x.total = t)) := by
  induction l with
  | nil => simp [insertDesc, List.filter_cons, h]
  | cons d ds ih =>
    rw [insertDesc]
    by_cases hdc : d.total ≤ c.total
    · rw [if_pos hdc]
      rw [List.filter_cons, if_neg (by simpa using h)]
    · rw [if_neg hdc]
      rw [List.filter_cons, ih, List.filter_cons]

/-- Stability of the ranked order: for each total value `t`, the sublist of
candidates of total `t` appears in the ranked list exactly in input order. -/
theorem sortDesc_filter (t : ℚ) (l : List Candidate) :
    (sortDesc l).filter (fun x => decide (x.total = t)) =
      l.filter (fun x => decide (x.total = t)) := by
  induction l with
  | nil => rfl
  | cons c cs ih =>
    rw [sortDesc]
    by_cases hc : c.total = t
    · rw [insertDesc_filter_pos t c _ hc, ih, List.filter_cons, if_pos (by simpa using hc)]
    · rw [insertDesc_filter_neg t c _ hc, ih, List.filter_cons, if_neg (by simpa using hc)]

/-! ### Properties of command de-duplication -/

/-- Specification-level characterisation of first-occurrence
de-duplication: keep each string at its first position, deleting its later
occurrences. -/
def firstOccurrences : List (List Char) → List (List Char)
  | [] => []
  | c :: cs => c :: (firstOccurrences cs).filter (fun x => decide (x ≠ c))

/-- The `seen`-set loop of `extract_commands` computes exactly the
first-occurrence de-duplication, restricted to strings not yet seen. -/
theorem dedupFirst_eq (cs : List (List Char)) :
    ∀ seen, dedupFirst cs seen =
      (firstOccurrences cs).filter (fun x => decide (x ∉ seen)) := by
  induction cs with
  | nil =>
    intro seen
    rfl
  | cons c cs ih =>
    intro seen
    rw [dedupFirst, firstOccurrences]
    by_cases hc : c ∈ seen
    · rw [if_pos hc, List.filter_cons, if_neg (by simpa using hc),
        List.filter_filter, ih seen]
      apply List.filter_congr
      intro x _
      by_cases hx : x ∈ seen
      · simp [hx]
      · have hxc : x ≠ c := fun he => hx (he ▸ hc)
        simp [hx, hxc]
    · rw [if_neg hc, List.filter_cons, if_pos (by simpa using hc),
        List.filter_filter, ih (c :: seen)]
      congr 1
      apply List.filter_congr
      intro x _
      by_cases hxc : x = c
      · simp [hxc]
      · by_cases hx : x ∈ seen
        · simp [hx, hxc]
        · simp [hx, hxc]

/-- First-occurrence de-duplication yields no duplicates. -/
theorem firstOccurrences_nodup (cs : List (List Char)) :
    (firstOccurrences cs).Nodup := by
  induction cs with
  | nil => simp [firstOccurrences]
  | cons c cs ih =>
    rw [firstOccurrences]
    refine List.nodup_cons.mpr ⟨?_, List.Nodup.filter _ ih⟩
    intro hc
    have := (List.mem_filter.mp hc).2
    simp at this

/-! ### Properties of the formatter's join -/

/-- Python join on a non-empty tail list. -/
theorem joinNL_cons (x : List Char) (l : List (List Char)) (hl : l ≠ []) :
    joinNL (x :: l) = x ++ '\n' :: joinNL l := by
  match l, hl with
  | y :: rest, _ => rfl

/-- Joining a list with a fixed non-empty tail block always ends with the
joined tail block. -/
theorem joinNL_suffix (ys : List (List Char)) (hys : ys ≠ []) :
    ∀ xs, List.IsSuffix (joinNL ys) (joinNL (xs ++ ys)) := by
  intro xs
  induction xs with
  | nil => exact List.suffix_refl _
  | cons x xs ih =>
    have hne : xs ++ ys ≠ [] := by
      intro h
      rcases List.append_eq_nil.mp h with ⟨_, h2⟩
      exact hys h2
    rw [List.cons_append, joinNL_cons x (xs ++ ys) hne]
    refine List.IsSuffix.trans ih ?_
    refine List.IsSuffix.trans (List.suffix_cons '\n' (joinNL (xs ++ ys))) ?_
    exact List.suffix_append x ('\n' :: joinNL (xs ++ ys))

/-! ### Claim theorems -/

/-- C10: `pick_best` applied to an empty candidate list returns
`best = None` together with an empty ranked sequence, rather than raising
an error (any caller dereferencing fields of `best` afterwards does so
outside this guarantee, modelled by the `crashed`/`none` branches of the
two surfaces). -/
theorem pick_best_empty_none (score : List Char → ℚ) :
    pick_best score [] = (none, []) := rfl

/-- C7: after `pick_best` processes a candidate list, every candidate
record satisfies `qual == score(answer)` and `total == sim + qual`; the
invariant holds for every member of the ranked output and for the best
candidate when one exists. -/
theorem pick_best_total_invariant (score : List Char → ℚ) (results : List RawCand)
    (b : Option Candidate) (ranked : List Candidate)
    (h : pick_best score results = (b, ranked)) :
    (∀ c ∈ ranked, c.qual = score c.answer ∧ c.total = c.sim + c.qual) ∧
    ∀ x : Candidate, b = some x → x.qual = score x.answer ∧ x.total = x.sim + x.qual := by
  have hb : bestLoop (results.map (annotate score)) none (-999.0) = b := by
    have h1 := congrArg Prod.fst h
    simpa [pick_best] using h1
  have hr : sortDesc (results.map (annotate score)) = ranked := by
    have h2 := congrArg Prod.snd h
    simpa [pick_best] using h2
  constructor
  · intro c hc
    have hmem : c ∈ results.map (annotate score) := by
      rw [← hr] at hc
      exact (sortDesc_perm _).mem_iff.mp hc
    obtain ⟨r, _, rfl⟩ := List.mem_map.mp hmem
    exact ⟨rfl, rfl⟩
  · intro x hx
    rw [hx] at hb
    rcases bestLoop_some_mem _ _ _ _ hb with hmem | hbad
    · obtain ⟨r, _, rfl⟩ := List.mem_map.mp hmem
      exact ⟨rfl, rfl⟩
    · cases hbad

/-- C2: on every non-empty candidate list (whose totals exceed the
`-999.0` sentinel, as any similarity in `[-1, 1]` does), `pick_best`
returns a best candidate of maximal total that is the earliest such
candidate in input order, and the ranked output is a permutation of the
scored candidates, sorted by total descending, stable on ties (the
candidates at each total level keep their input order). -/
theorem pick_best_max_and_stable_sort (score : List Char → ℚ)
    (results : List RawCand) (hne : results ≠ [])
    (hlb : ∀ r ∈ results, (-999.0 : ℚ) < r.sim + score r.answer) :
    ∃ b l1 l2,
      (pick_best score results).1 = some b ∧
      results.map (annotate score) = l1 ++ b :: l2 ∧
      (∀ c ∈ l1, c.total < b.total) ∧
      (∀ c ∈ results.map (annotate score), c.total ≤ b.total) ∧
      List.Perm (pick_best score results).2 (results.map (annotate score)) ∧
      List.Pairwise (fun a c => c.total ≤ a.total) (pick_best score results).2 ∧
      ∀ t : ℚ, ((pick_best score results).2).filter (fun c => decide (c.total = t)) =
        (results.map (annotate score)).filter (fun c => decide (c.total = t)) := by
  have hne' : results.map (annotate score) ≠ [] := by
    intro h
    exact hne (List.map_eq_nil_iff.mp h)
  have hlb' : ∀ c ∈ results.map (annotate score), (-999.0 : ℚ) < c.total := by
    intro c hc
    obtain ⟨r, hr, rfl⟩ := List.mem_map.mp hc
    exact hlb r hr
  obtain ⟨bf, l1, l2, h1, h2, h3, h4⟩ := bestLoop_start _ hne' hlb'
  refine ⟨bf, l1, l2, ?_, h2, h3, h4, ?_, ?_, ?_⟩
  · simpa [pick_best] using h1
  · simpa [pick_best] using sortDesc_perm (results.map (annotate score))
  · simpa [pick_best] using sortDesc_pairwise (results.map (annotate score))
  · intro t
    simpa [pick_best] using sortDesc_filter t (results.map (annotate score))

/-- The veto check of the quality scorers, applied as in the source to the
lowercased, stripped answer text. -/
def vetoed (bad : List NoisePat) (ans : List Char) : Bool :=
  bad.any (noiseMatch (trimChars (lowerChars ans)))

/-- C3: whenever some noise pattern of the fixed veto list matches the
answer text, the quality scorer returns exactly `-2.0` — ignoring all
hint, length, and phrasing terms — so the candidate's total equals
`similarity - 2.0`; this holds for both surfaces' scorers and veto lists. -/
theorem veto_pattern_forces_minus_two (ans mq : List Char) (sim : ℚ) :
    (vetoed chat.BAD_PATTERNS ans = true →
      chat.answer_quality_score ans = -2.0 ∧
      (annotate chat.answer_quality_score ⟨sim, mq, ans⟩).total = sim - 2.0) ∧
    (vetoed app.BAD_PATTERNS ans = true →
      app.answer_quality ans = -2.0 ∧
      (annotate app.answer_quality ⟨sim, mq, ans⟩).total = sim - 2.0) := by
  constructor
  · intro h
    rw [vetoed] at h
    have hs : chat.answer_quality_score ans = -2.0 := by
      simp only [chat.answer_quality_score, qualityScoreGen]
      rw [if_pos h]
    refine ⟨hs, ?_⟩
    show sim + chat.answer_quality_score ans = sim - 2.0
    rw [hs]
    ring
  · intro h
    rw [vetoed] at h
    have hs : app.answer_quality ans = -2.0 := by
      simp only [app.answer_quality, qualityScoreGen]
      rw [if_pos h]
    refine ⟨hs, ?_⟩
    show sim + app.answer_quality ans = sim - 2.0
    rw [hs]
    ring

/-- C4: `extract_commands` applied to `"Run apt-get update, then reboot."`
returns exactly `["sudo apt-get update", "sudo reboot"]`, in that order:
the first segment is kept with `Run ` stripped and `sudo ` prepended, the
`then reboot.` segment has no command keyword, and the `reboot` mention in
the full text appends the literal `sudo reboot`. -/
theorem extract_commands_update_reboot_example :
    extract_commands ("Run apt-get update, then reboot.".data) =
      ["sudo apt-get update".data, "sudo reboot".data] := by decide

/-- C6: `extract_commands` applied to `"sudo apt-get update"` returns
exactly `["sudo apt-get update"]` — an already-clean single command is a
fixed point of extraction. -/
theorem extract_commands_clean_fixed_point :
    extract_commands ("sudo apt-get update".data) = ["sudo apt-get update".data] := by
  decide

/-- C5: for every input text, `extract_commands` returns at most 8
entries, with no duplicate strings, and every kept string appears at the
position of its first occurrence (the result is first-occurrence
de-duplication of the collected command list, truncated to 8). -/
theorem extract_commands_bounded_nodup_first (text : List Char) :
    (extract_commands text).length ≤ 8 ∧ (extract_commands text).Nodup ∧
    extract_commands text =
      (firstOccurrences (rawCommands (trimChars text))).take 8 := by
  have hmain : extract_commands text =
      (firstOccurrences (rawCommands (trimChars text))).take 8 := by
    rw [extract_commands]
    by_cases h : text = []
    · rw [if_pos h, h]
      decide
    · rw [if_neg h, dedupFirst_eq]
      congr 1
      apply List.filter_eq_self.mpr
      intro a _
      simp
  refine ⟨?_, ?_, hmain⟩
  · rw [hmain]
    exact List.length_take_le _ _
  · rw [hmain]
    exact List.Nodup.sublist (List.take_sublist _ _) (firstOccurrences_nodup _)

/-- The diagnostic tail of both formatters: the `3)` header line followed
by the four fixed diagnostic-gathering lines, joined as in the output. -/
theorem format_tail_suffix (A B : List (List Char)) (l3 : List Char) :
    List.IsSuffix (joinNL DIAG_LINES) (joinNL (A ++ B ++ (l3 :: DIAG_LINES))) := by
  have h : A ++ B ++ (l3 :: DIAG_LINES) = (A ++ B ++ [l3]) ++ DIAG_LINES := by
    simp [List.append_assoc]
  rw [h]
  exact joinNL_suffix DIAG_LINES (by decide) _

/-- C9: for every best-answer text (and, for the CLI formatter, every
query), the formatter output ends with the fixed four-line
diagnostic-gathering block (version check, hardware identification,
network status, log tail), whether or not any commands were extracted;
in particular the output contains that block. -/
theorem formatter_diag_block_suffix (q ans : List Char) :
    List.IsSuffix (joinNL DIAG_LINES) (chat.format_support_answer q ans) ∧
    List.IsSuffix (joinNL DIAG_LINES) (app.format_support_answer ans) := by
  constructor
  · simp only [chat.format_support_answer]
    exact format_tail_suffix _ _ _
  · simp only [app.format_support_answer]
    exact format_tail_suffix _ _ _

/-- C8: a blank or whitespace-only input query is ignored silently on both
surfaces: the Streamlit Send handler leaves the session transcript
unchanged and appends nothing, and the CLI loop skips the turn; in both
cases the outcome does not depend on the retrieval results, so no
retrieval, reranking, or formatting output is produced. -/
theorem blank_query_ignored (raw : List Char) (hblank : trimChars raw = []) :
    (∀ (results : List RawCand) (messages : List (Bool × List Char)),
      appSendMessages results raw messages = some messages) ∧
    ∀ results : List RawCand, chatTurn results raw = ChatReply.skipped := by
  constructor
  · intro results messages
    rw [appSendMessages, if_pos hblank]
  · intro results
    simp only [chatTurn, hblank]
    simp only [lowerChars, List.map_nil]
    simp

/-- C1 (amended): the confidence gate exists only on the CLI surface.
Whenever the CLI loop reaches the reranker (non-exit, non-blank, in-domain
input) and the best candidate's total is below `MIN_TOTAL_SCORE = 1.10`,
the CLI turn yields the fixed low-confidence diagnostic-request reply
instead of a formatted answer; the Streamlit Send handler applies no
confidence gate at all and returns the formatted best answer for every
in-domain query for which a best candidate exists, regardless of its
total. -/
theorem confidence_gate_cli_only (results : List RawCand) (raw : List Char) :
    (∀ (b : Candidate) (rk : List Candidate),
      pick_best chat.answer_quality_score results = (some b, rk) →
      b.total < chat.MIN_TOTAL_SCORE →
      ¬ (lowerChars (trimChars raw) = "exit".data ∨
         lowerChars (trimChars raw) = "quit".data) →
      trimChars raw ≠ [] →
      chat.is_ubuntu_question (trimChars raw) = true →
      chatTurn results raw = ChatReply.lowConfidence) ∧
    ∀ (b : Candidate) (rk : List Candidate),
      pick_best app.answer_quality results = (some b, rk) →
      app.is_ubuntu_question raw = true →
      appBotMsg results raw = some (app.format_support_answer b.answer) := by
  constructor
  · intro b rk hpb hlt hexit hblank hdom
    simp only [chatTurn]
    rw [if_neg hexit, if_neg hblank, if_neg (by simp [hdom]), hpb]
    show (if b.total < chat.MIN_TOTAL_SCORE then ChatReply.lowConfidence
      else ChatReply.answered (chat.format_support_answer (trimChars raw) b.answer)) =
      ChatReply.lowConfidence
    rw [if_pos hlt]
  · intro b rk hpb hdom
    rw [appBotMsg, if_neg (by simp [hdom])]
    have h1 : (pick_best app.answer_quality results).1 = some b := by
      rw [hpb]
    rw [h1]
    rfl

/-- C1 (counterexample to the claim as stated): on the Streamlit surface,
for the in-domain query `"wifi broken"` and a retrieval result whose only
candidate has answer `"lol"` (vetoed, so `total = -2.0`, far below the
`1.10` threshold), the Send handler still returns that candidate's
formatted answer — not a diagnostic-request message, which the Streamlit
surface never produces. -/
theorem confidence_gate_app_counterexample :
    (pick_best app.answer_quality [⟨0, [], "lol".data⟩]).1 =
      some ⟨0, [], "lol".data, -2.0, -2.0⟩ ∧
    (⟨0, [], "lol".data, -2.0, -2.0⟩ : Candidate).total < chat.MIN_TOTAL_SCORE ∧
    appBotMsg [⟨0, [], "lol".data⟩] ("wifi broken".data) =
      some (app.format_support_answer ("lol".data)) := by
  refine ⟨?_, ?_, ?_⟩
  · with_unfolding_all decide
  · with_unfolding_all decide
  · rw [appBotMsg, if_neg (by decide)]
    rw [show (pick_best app.answer_quality [⟨0, [], "lol".data⟩]).1 =
      some ⟨0, [], "lol".data, -2.0, -2.0⟩ by with_unfolding_all decide]
    rfl

/-- Witness for C1 (amended): concrete inputs discharging every
hypothesis — a single vetoed candidate (`total = -2.0 < 1.10`) and the
in-domain query `"wifi broken"` — with both surfaces' conclusions. -/
theorem confidence_gate_cli_only_witness :
    pick_best chat.answer_quality_score [⟨0, [], "lol".data⟩] =
      (some ⟨0, [], "lol".data, -2.0, -2.0⟩, [⟨0, [], "lol".data, -2.0, -2.0⟩]) ∧
    (⟨0, [], "lol".data, -2.0, -2.0⟩ : Candidate).total < chat.MIN_TOTAL_SCORE ∧
    ¬ (lowerChars (trimChars ("wifi broken".data)) = "exit".data ∨
       lowerChars (trimChars ("wifi broken".data)) = "quit".data) ∧
    trimChars ("wifi broken".data) ≠ [] ∧
    chat.is_ubuntu_question (trimChars ("wifi broken".data)) = true ∧
    chatTurn [⟨0, [], "lol".data⟩] ("wifi broken".data) = ChatReply.lowConfidence ∧
    pick_best app.answer_quality [⟨0, [], "lol".data⟩] =
      (some ⟨0, [], "lol".data, -2.0, -2.0⟩, [⟨0, [], "lol".data, -2.0, -2.0⟩]) ∧
    app.is_ubuntu_question ("wifi broken".data) = true ∧
    appBotMsg [⟨0, [], "lol".data⟩] ("wifi broken".data) =
      some (app.format_support_answer ("lol".data)) :=
  ⟨by with_unfolding_all decide,
   by with_unfolding_all decide,
   by decide,
   by decide,
   by decide,
   (confidence_gate_cli_only [⟨0, [], "lol".data⟩] ("wifi broken".data)).1
     (⟨0, [], "lol".data, -2.0, -2.0⟩) ([⟨0, [], "lol".data, -2.0, -2.0⟩])
     (by with_unfolding_all decide) (by with_unfolding_all decide)
     (by decide) (by decide) (by decide),
   by with_unfolding_all decide,
   by decide,
   (confidence_gate_cli_only [⟨0, [], "lol".data⟩] ("wifi broken".data)).2
     (⟨0, [], "lol".data, -2.0, -2.0⟩) ([⟨0, [], "lol".data, -2.0, -2.0⟩])
     (by with_unfolding_all decide) (by decide)⟩

/-- Witness for C2: a concrete two-candidate list (a vetoed answer and a
short plain answer) satisfying both hypotheses, with the conclusion
obtained by applying the theorem there. -/
theorem pick_best_max_and_stable_sort_witness :
    ([⟨0.5, [], "lol".data⟩, ⟨1, [], "x".data⟩] : List RawCand) ≠ [] ∧
    (∀ r ∈ ([⟨0.5, [], "lol".data⟩, ⟨1, [], "x".data⟩] : List RawCand),
      (-999.0 : ℚ) < r.sim + chat.answer_quality_score r.answer) ∧
    (∃ b l1 l2,
      (pick_best chat.answer_quality_score
        [⟨0.5, [], "lol".data⟩, ⟨1, [], "x".data⟩]).1 = some b ∧
      ([⟨0.5, [], "lol".data⟩, ⟨1, [], "x".data⟩] : List RawCand).map
        (annotate chat.answer_quality_score) = l1 ++ b :: l2 ∧
      (∀ c ∈ l1, c.total < b.total) ∧
      (∀ c ∈ ([⟨0.5, [], "lol".data⟩, ⟨1, [], "x".data⟩] : List RawCand).map
        (annotate chat.answer_quality_score), c.total ≤ b.total) ∧
      List.Perm (pick_best chat.answer_quality_score
          [⟨0.5, [], "lol".data⟩, ⟨1, [], "x".data⟩]).2
        (([⟨0.5, [], "lol".data⟩, ⟨1, [], "x".data⟩] : List RawCand).map
          (annotate chat.answer_quality_score)) ∧
      List.Pairwise (fun a c => c.total ≤ a.total)
        (pick_best chat.answer_quality_score
          [⟨0.5, [], "lol".data⟩, ⟨1, [], "x".data⟩]).2 ∧
      ∀ t : ℚ, ((pick_best chat.answer_quality_score
          [⟨0.5, [], "lol".data⟩, ⟨1, [], "x".data⟩]).2).filter
            (fun c => decide (c.total = t)) =
        (([⟨0.5, [], "lol".data⟩, ⟨1, [], "x".data⟩] : List RawCand).map
          (annotate chat.answer_quality_score)).filter
            (fun c => decide (c.total = t))) :=
  ⟨by decide, by with_unfolding_all decide,
   pick_best_max_and_stable_sort chat.answer_quality_score
     [⟨0.5, [], "lol".data⟩, ⟨1, [], "x".data⟩]
     (by decide) (by with_unfolding_all decide)⟩

/-- Witness for C3: the answer text `"lol"` triggers a veto pattern on both
surfaces, the scorers return exactly `-2.0`, and the total of a candidate
with similarity `0.9` is `0.9 - 2.0`. -/
theorem veto_pattern_forces_minus_two_witness :
    vetoed chat.BAD_PATTERNS ("lol".data) = true ∧
    vetoed app.BAD_PATTERNS ("lol".data) = true ∧
    (chat.answer_quality_score ("lol".data) = -2.0 ∧
      (annotate chat.answer_quality_score ⟨0.9, [], "lol".data⟩).total = 0.9 - 2.0) ∧
    (app.answer_quality ("lol".data) = -2.0 ∧
      (annotate app.answer_quality ⟨0.9, [], "lol".data⟩).total = 0.9 - 2.0) :=
  ⟨by decide, by decide,
   (veto_pattern_forces_minus_two ("lol".data) [] 0.9).1 (by decide),
   (veto_pattern_forces_minus_two ("lol".data) [] 0.9).2 (by decide)⟩

/-- Witness for C7: a concrete one-candidate run of `pick_best` with the
invariant instantiated at its computed output. -/
theorem pick_best_total_invariant_witness :
    pick_best chat.answer_quality_score [⟨1, [], "x".data⟩] =
      (some ⟨1, [], "x".data, -0.5, 0.5⟩, [⟨1, [], "x".data, -0.5, 0.5⟩]) ∧
    ((∀ c ∈ [(⟨1, [], "x".data, -0.5, 0.5⟩ : Candidate)],
        c.qual = chat.answer_quality_score c.answer ∧ c.total = c.sim + c.qual) ∧
      ∀ x : Candidate, some (⟨1, [], "x".data, -0.5, 0.5⟩ : Candidate) = some x →
        x.qual = chat.answer_quality_score x.answer ∧ x.total = x.sim + x.qual) :=
  ⟨by with_unfolding_all decide,
   pick_best_total_invariant chat.answer_quality_score [⟨1, [], "x".data⟩]
     (some ⟨1, [], "x".data, -0.5, 0.5⟩) ([⟨1, [], "x".data, -0.5, 0.5⟩])
     (by with_unfolding_all decide)⟩

/-- Witness for C8: the whitespace-only input `"   "` is ignored by both
surfaces. -/
theorem blank_query_ignored_witness :
    trimChars ("   ".data) = [] ∧
    ((∀ (results : List RawCand) (messages : List (Bool × List Char)),
        appSendMessages results ("   ".data) messages = some messages) ∧
      ∀ results : List RawCand, chatTurn results ("   ".data) = ChatReply.skipped) :=
  ⟨by decide, blank_query_ignored ("   ".data) (by decide)⟩

/-! ### The sentinel hypothesis of C2 holds for every data-model candidate -/

/-- The hint loop only ever adds to the running score. -/
theorem foldl_quality_ge (a : List Char) (hints : List (List Char)) :
    ∀ z : ℚ, z ≤ hints.foldl (fun s w => if containsSub a w then s + 0.25 else s) z := by
  induction hints with
  | nil =>
    intro z
    exact le_refl z
  | cons w ws ih =>
    intro z
    rw [List.foldl_cons]
    refine le_trans ?_ (ih _)
    by_cases h : containsSub a w = true
    · rw [if_pos h]
      linarith
    · rw [if_neg h]

/-- Every quality score is at least `-2.0`: the veto value is the global
minimum of the scorer. -/
theorem qualityScoreGen_ge_neg2 (bad : List NoisePat)
    (hints stepWords : List (List Char)) (ans : List Char) :
    (-2.0 : ℚ) ≤ qualityScoreGen bad hints stepWords ans := by
  simp only [qualityScoreGen]
  have h0 : (0.0 : ℚ) ≤ (trimChars (lowerChars ans) |> fun a =>
      hints.foldl (fun s w => if containsSub a w then s + 0.25 else s) 0.0) :=
    foldl_quality_ge _ hints 0.0
  split_ifs <;> simp only [] at h0 ⊢ <;> norm_num <;> linarith

/-- Any candidate whose similarity respects the data model (`sim ≥ -1`) has
total strictly above the `-999.0` selection sentinel, for either scorer
shape. -/
theorem total_above_sentinel (bad : List NoisePat)
    (hints stepWords : List (List Char)) (r : RawCand) (hsim : -1 ≤ r.sim) :
    (-999.0 : ℚ) < r.sim + qualityScoreGen bad hints stepWords r.answer := by
  have h := qualityScoreGen_ge_neg2 bad hints stepWords r.answer
  have h3 : (-999.0 : ℚ) < -1 + -2.0 := by norm_num
  linarith
